import Mathlib

/-!
Verification of the wolfictl advisory core: the advisory document model, the
Create/Update mutation entry points layered on the document index, and the
security-database exporter with its event-fold engine.

Go sources embedded here: pkg/advisory/create.go (Create, createAdvisoryConfig,
Update) and the BuildSecurityDatabase routine.  Support code that the sources
call but that is not part of this repository snapshot (configs.Index,
v2.Advisory.SortedEvents, v2.Advisories.Get/Update, Request.Validate, the
secdb types) is modelled from the specification, as marked on each definition.
-/

deriving instance DecidableEq for Except

namespace Wolfictl

/-- Event kinds.  Modelled from the spec: the closed set of event types, at
minimum Fixed (carrying a fixedVersion) and FalsePositiveDetermination, plus
the other determination kinds the spec names as examples (not affected, under
investigation, pending upstream fix). -/
inductive EventType where
  | fixed
  | falsePositiveDetermination
  | notAffected
  | underInvestigation
  | pendingUpstreamFix
deriving DecidableEq

/-- Event payloads.  Modelled from the spec: a type-specific payload present
only for kinds that need it; Fixed carries a fixedVersion string, the other
kinds carry no payload used by this core.  In Go this is a dynamically typed
field (the Fixed case is recovered by the type assertion latest.Data.(v2.Fixed)
in BuildSecurityDatabase). -/
inductive EventData where
  | fixed (fixedVersion : String)
  | noData
deriving DecidableEq

/-- One state transition in an advisory's history (v2.Event).  The timestamp
is used only for ordering, so it is embedded as a natural number. -/
structure Event where
  timestamp : Nat
  type : EventType
  data : EventData
deriving DecidableEq

/-- A tracked vulnerability for one package (v2.Advisory). -/
structure Advisory where
  id : String
  aliases : List String
  events : List Event
deriving DecidableEq

/-- Package identity section of a document (v2.Package). -/
structure Package where
  name : String
deriving DecidableEq

/-- One package's advisory file (v2.Document). -/
structure Document where
  schemaVersion : String
  package : Package
  advisories : List Advisory
deriving DecidableEq

/-- Modelled from the spec: the current schema version constant
(v2.SchemaVersion); every write upgrades documents to this version.  The
concrete value is immaterial to the claims. -/
def SchemaVersion : String := "2"

/-- A fully collected advisory request (advisory.Request).  The event is an
Option so that the validation requirement that a request carry an initial
event is expressible; an absent event corresponds to the Go zero value. -/
structure Request where
  package : String
  vulnerabilityID : String
  aliases : List String
  event : Option Event
deriving DecidableEq

/-- The Go zero value of v2.Event, appended verbatim when a caller passes a
request without an event (the code never checks). -/
def zeroEvent : Event :=
  { timestamp := 0, type := EventType.underInvestigation, data := EventData.noData }

/-- Modelled from the spec: Request.Validate is not in this snapshot; the spec
requires the package name present, the vulnerability ID present, at least one
initial event, and well-formed (non-empty) aliases.  Returns the list of
missing or invalid fields; the request is valid when the list is empty. -/
def requestValidate (req : Request) : List String :=
  (if req.package = "" then ["package"] else [])
    ++ (if req.vulnerabilityID = "" then ["vulnerability"] else [])
    ++ (if req.event.isNone then ["event"] else [])
    ++ (if req.aliases.any (fun a => a = "") then ["aliases"] else [])

/-! ### Event-fold engine -/

/-- Ordering of events by timestamp, the sort key of SortedEvents. -/
def evLe (a b : Event) : Prop := a.timestamp ≤ b.timestamp

instance : DecidableRel evLe := fun a b => Nat.decLe a.timestamp b.timestamp

instance : IsTotal Event evLe := ⟨fun a b => Nat.le_total a.timestamp b.timestamp⟩

instance : IsTrans Event evLe := ⟨fun _ _ _ hab hbc => Nat.le_trans hab hbc⟩

/-- Modelled from the spec: v2.Advisory.SortedEvents is not in this snapshot;
the spec requires the advisory's events sorted by timestamp ascending with
ties broken by original insertion order (a stable sort).  Insertion sort with
the non-strict timestamp comparison is exactly such a stable sort. -/
def SortedEvents (es : List Event) : List Event :=
  List.insertionSort evLe es

/-- The event that BuildSecurityDatabase treats as latest:
sortedEvents[len(advisory.Events)-1], embedded as an optional lookup since the
Go expression panics when out of bounds. -/
def latestEvent (es : List Event) : Option Event :=
  (SortedEvents es)[es.length - 1]?

lemma sortedEvents_perm (es : List Event) : List.Perm (SortedEvents es) es :=
  List.perm_insertionSort evLe es

lemma sortedEvents_length (es : List Event) : (SortedEvents es).length = es.length :=
  (sortedEvents_perm es).length_eq

lemma sortedEvents_sorted (es : List Event) : List.Sorted evLe (SortedEvents es) :=
  List.sorted_insertionSort evLe es

lemma orderedInsert_filter_pos (e : Event) (t : Nat) (h : e.timestamp = t) :
    ∀ l : List Event,
      (List.orderedInsert evLe e l).filter (fun x => x.timestamp == t)
        = e :: l.filter (fun x => x.timestamp == t)
  | [] => by simp [h]
  | b :: l => by
    by_cases hb : evLe e b
    · rw [List.orderedInsert_of_le evLe l hb]
      simp [List.filter_cons, h]
    · have hlt : b.timestamp < e.timestamp := Nat.lt_of_not_le hb
      have hbt : (b.timestamp == t) = false := by
        simp only [beq_eq_false_iff_ne, ne_eq]
        exact fun hbt => absurd (h ▸ hbt) (Nat.ne_of_lt hlt)
      simp only [List.orderedInsert, if_neg hb, List.filter_cons, hbt]
      simpa [hbt] using orderedInsert_filter_pos e t h l

lemma orderedInsert_filter_neg (e : Event) (t : Nat) (h : e.timestamp ≠ t) :
    ∀ l : List Event,
      (List.orderedInsert evLe e l).filter (fun x => x.timestamp == t)
        = l.filter (fun x => x.timestamp == t)
  | [] => by simp [h]
  | b :: l => by
    by_cases hb : evLe e b
    · rw [List.orderedInsert_of_le evLe l hb]
      simp [List.filter_cons, h]
    · simp only [List.orderedInsert, if_neg hb, List.filter_cons]
      rw [orderedInsert_filter_neg e t h l]

/-- Stability of the event sort: within each timestamp the events keep their
original insertion order (so no secondary key, such as the event type, ever
reorders them). -/
lemma sortedEvents_filter_timestamp (es : List Event) (t : Nat) :
    (SortedEvents es).filter (fun x => x.timestamp == t)
      = es.filter (fun x => x.timestamp == t) := by
  induction es with
  | nil => rfl
  | cons e es ih =>
    show (List.orderedInsert evLe e (SortedEvents es)).filter _ = _
    by_cases h : e.timestamp = t
    · rw [orderedInsert_filter_pos e t h, ih, List.filter_cons]
      simp [h]
    · rw [orderedInsert_filter_neg e t h, ih, List.filter_cons]
      simp [h]

/-- The index used by BuildSecurityDatabase picks exactly the last element of
the sorted event list. -/
lemma latestEvent_eq_getLast? (es : List Event) :
    latestEvent es = (SortedEvents es).getLast? := by
  rw [latestEvent, List.getLast?_eq_getElem?, sortedEvents_length]

/-! ### Security database exporter (BuildSecurityDatabase) -/

/-- Modelled from the spec: secdb.NAK, the distinguished marker under which
false-positive determinations are grouped instead of a fixed version.  The
concrete value is immaterial to the claims. -/
def NAK : String := "0"

/-- Failure modes of the exporter.  A Go panic (failed type assertion or
out-of-bounds index) is embedded as an explicit error value. -/
inductive BuildError where
  | panicked
  | noPackageSecurityData
deriving DecidableEq

/-- Modelled from the spec: secdb.Secfixes, the package-level map from target
version (or the NAK marker) to the vulnerability IDs it resolves.  The Go map
is embedded as an association list in insertion order. -/
abbrev Secfixes : Type := List (String × List String)

/-- The Go statement secfixes[key] = append(secfixes[key], vulnID): append to
the key's list, creating the key when absent. -/
def secfixesAdd (sf : Secfixes) (key vulnID : String) : Secfixes :=
  match sf with
  | [] => [(key, [vulnID])]
  | (k, vs) :: rest =>
    if k = key then (k, vs ++ [vulnID]) :: rest
    else (k, vs) :: secfixesAdd rest key vulnID

/-- Modelled from the spec: secdb.Package and secdb.PackageEntry, one exported
entry per package with its secfixes map. -/
structure PackageEntry where
  name : String
  secfixes : Secfixes
deriving DecidableEq

/-- What a single advisory contributes to its document's secfixes map: the
switch on the latest event's type in BuildSecurityDatabase.  A Fixed latest
event yields the (fixedVersion, vulnID) pair, a FalsePositiveDetermination
latest event yields the (NAK, vulnID) pair, any other kind yields nothing.
The unchecked latest.Data.(v2.Fixed) type assertion and the indexing
sortedEvents[len(advisory.Events)-1] are embedded as potential panics. -/
def advisorySecfixesEntry (adv : Advisory) : Except BuildError (Option (String × String)) :=
  if adv.events.length = 0 then Except.ok none
  else
    match latestEvent adv.events with
    | none => Except.error BuildError.panicked
    | some latest =>
      match latest.type with
      | EventType.fixed =>
        match latest.data with
        | EventData.fixed version => Except.ok (some (version, adv.id))
        | EventData.noData => Except.error BuildError.panicked
      | EventType.falsePositiveDetermination => Except.ok (some (NAK, adv.id))
      | _ => Except.ok none

/-- Ordering of advisories by ID, the comparison used both by sort.Sort on
v2.Advisories and by the sort.Slice call in BuildSecurityDatabase. -/
def advLe (a b : Advisory) : Prop := a.id ≤ b.id

instance : DecidableRel advLe := fun a b => inferInstanceAs (Decidable (a.id ≤ b.id))

instance : IsTotal Advisory advLe := ⟨fun a b => le_total a.id b.id⟩

instance : IsTrans Advisory advLe := ⟨fun _ _ _ hab hbc => le_trans hab hbc⟩

/-- The in-place sort of an advisory list by ID (sort.Sort(advisories) in
Create/Update, sort.Slice(doc.Advisories, ...) in BuildSecurityDatabase). -/
def sortAdvisories (l : List Advisory) : List Advisory :=
  List.insertionSort advLe l

/-- The inner loop of BuildSecurityDatabase over one document's (sorted)
advisory list, accumulating the secfixes map. -/
def docSecfixes (sf : Secfixes) : List Advisory → Except BuildError Secfixes
  | [] => Except.ok sf
  | adv :: rest =>
    match advisorySecfixesEntry adv with
    | Except.error e => Except.error e
    | Except.ok none => docSecfixes sf rest
    | Except.ok (some (key, vulnID)) => docSecfixes (secfixesAdd sf key vulnID) rest

/-- One document's contribution to the exported package entries: skip the
document when it has no advisories, otherwise sort the advisories by ID, fold
them into a secfixes map, and skip the document when that map is empty. -/
def docEntry (doc : Document) : Except BuildError (Option PackageEntry) :=
  if doc.advisories = [] then Except.ok none
  else
    match docSecfixes [] (sortAdvisories doc.advisories) with
    | Except.error e => Except.error e
    | Except.ok sf =>
      if sf = [] then Except.ok none
      else Except.ok (some { name := doc.package.name, secfixes := sf })

/-- The per-index document loop of BuildSecurityDatabase. -/
def collectDocEntries : List Document → Except BuildError (List PackageEntry)
  | [] => Except.ok []
  | doc :: rest =>
    match docEntry doc with
    | Except.error e => Except.error e
    | Except.ok none => collectDocEntries rest
    | Except.ok (some pe) =>
      match collectDocEntries rest with
      | Except.error e => Except.error e
      | Except.ok pes => Except.ok (pe :: pes)

/-- One advisory document index: the documents under one storage root,
addressed by file name.  Modelled from the spec: configs.Index is not in this
snapshot; the spec describes it as an addressable collection of documents with
name-based lookup. -/
abbrev IndexState : Type := List (String × Document)

/-- Modelled from the spec: Select().Configurations() returns an immutable
snapshot of the documents as values; the in-place sorts performed by
BuildSecurityDatabase therefore act on snapshot copies, not on the index. -/
def selectConfigurations (st : IndexState) : List Document :=
  st.map (fun p => p.2)

/-- Caller-supplied metadata of BuildSecurityDatabaseOptions (the document
indices are passed separately so that the store states can be threaded). -/
structure BuildOptions where
  urlBase : String
  archs : List String
  repo : String
deriving DecidableEq

/-- The exported artifact (secdb.Database); JSON serialization of this value
is the final step of the Go function and is outside the model. -/
structure Database where
  apkurl : String
  archs : List String
  repo : String
  urlBase : String
  packages : List PackageEntry
deriving DecidableEq

/-- The apk URL template constant of the exporter. -/
def apkURLTemplate : String :=
  "\x7b\x7burlprefix\x7d\x7d/\x7b\x7breponame\x7d\x7d/\x7b\x7barch\x7d\x7d/\x7b\x7bpkg.name\x7d\x7d-\x7b\x7bpkg.ver\x7d\x7d.apk"

/-- The outer loop of BuildSecurityDatabase over the supplied indices,
threading each index's store state to make the read-only claim expressible.
Returns on the first failure, as the Go loop does; an index whose documents
contribute no package entries fails with noPackageSecurityData. -/
def buildIndexLoop : List IndexState → Except BuildError (List PackageEntry) × List IndexState
  | [] => (Except.ok [], [])
  | st :: rest =>
    match collectDocEntries (selectConfigurations st) with
    | Except.error e => (Except.error e, st :: rest)
    | Except.ok [] => (Except.error BuildError.noPackageSecurityData, st :: rest)
    | Except.ok (pe :: pes) =>
      match buildIndexLoop rest with
      | (Except.error e, rest2) => (Except.error e, st :: rest2)
      | (Except.ok more, rest2) => (Except.ok ((pe :: pes) ++ more), st :: rest2)

/-- BuildSecurityDatabase: collect the package entries of every supplied
index and assemble the database artifact with the caller-supplied metadata. -/
def BuildSecurityDatabase (opts : BuildOptions) (indices : List IndexState) :
    Except BuildError Database × List IndexState :=
  match buildIndexLoop indices with
  | (Except.error e, sts) => (Except.error e, sts)
  | (Except.ok pkgs, sts) =>
    (Except.ok { apkurl := apkURLTemplate, archs := opts.archs, repo := opts.repo,
                 urlBase := opts.urlBase, packages := pkgs }, sts)

/-! ### Document index operations and the Create/Update entry points -/

/-- Errors surfaced by the Create/Update entry points.  The Go code reports
them as wrapped formatted errors; here each is a structured constructor. -/
inductive AdvisoryError where
  | invalidRequest (fields : List String)
  | documentCount (count : Nat)
  | duplicateAdvisory (id pkg : String)
  | advisoryNotFound (id : String)
  | alreadyExists (fileName : String)
  | ioFailure
deriving DecidableEq

/-- Modelled from the spec: v2.Advisories.Get, the advisory lookup by ID. -/
def advisoriesGet (l : List Advisory) (id : String) : Option Advisory :=
  l.find? (fun a => a.id == id)

/-- Modelled from the spec: v2.Advisories.Update, replacing the advisory with
the given ID in the document's advisory list. -/
def advisoriesUpdate (l : List Advisory) (id : String) (adv : Advisory) : List Advisory :=
  l.map (fun a => if a.id = id then adv else a)

/-- The selection Select().WhereName(name): the documents whose package name
matches exactly. -/
def whereName (st : IndexState) (name : String) : IndexState :=
  st.filter (fun p => p.2.package.name == name)

/-- Modelled from the spec: Index.Create fails with AlreadyExists when a
document is already addressable by the file name and otherwise persists the
new document; the write is all-or-nothing, so a failed write (persistOk =
false) leaves the store untouched. -/
def indexCreate (fileName : String) (doc : Document) (persistOk : Bool) (st : IndexState) :
    Except AdvisoryError Unit × IndexState :=
  if st.any (fun p => p.1 == fileName) then
    (Except.error (AdvisoryError.alreadyExists fileName), st)
  else if persistOk then (Except.ok (), st ++ [(fileName, doc)])
  else (Except.error AdvisoryError.ioFailure, st)

/-- The per-document pass of Index.Update: apply the transform to every
document in the selection (the documents whose package name matches),
propagating the first transform error. -/
def updateDocs (transform : Document → Except AdvisoryError Document) (name : String) :
    IndexState → Except AdvisoryError IndexState
  | [] => Except.ok []
  | (fn, d) :: rest =>
    if d.package.name = name then
      match transform d with
      | Except.error e => Except.error e
      | Except.ok d2 =>
        match updateDocs transform name rest with
        | Except.error e => Except.error e
        | Except.ok rest2 => Except.ok ((fn, d2) :: rest2)
    else
      match updateDocs transform name rest with
      | Except.error e => Except.error e
      | Except.ok rest2 => Except.ok ((fn, d) :: rest2)

/-- Modelled from the spec: one Index.Update transaction over the selection
WhereName(name).  A transform error is propagated unchanged and nothing is
persisted; the persisted write is all-or-nothing, so a failed write
(persistOk = false) leaves the store untouched. -/
def indexUpdate (name : String) (transform : Document → Except AdvisoryError Document)
    (persistOk : Bool) (st : IndexState) : Except AdvisoryError IndexState :=
  match updateDocs transform name st with
  | Except.error e => Except.error e
  | Except.ok st2 => if persistOk then Except.ok st2 else Except.error AdvisoryError.ioFailure

/-- v2.NewAdvisoriesSectionUpdater: lift a transform of the advisories section
to a document transform. -/
def newAdvisoriesSectionUpdater (t : Document → Except AdvisoryError (List Advisory)) :
    Document → Except AdvisoryError Document :=
  fun doc =>
    match t doc with
    | Except.error e => Except.error e
    | Except.ok advs => Except.ok { doc with advisories := advs }

/-- v2.NewSchemaVersionSectionUpdater: set the document's schema version. -/
def newSchemaVersionSectionUpdater (v : String) : Document → Except AdvisoryError Document :=
  fun doc => Except.ok { doc with schemaVersion := v }

/-- The advisories-section transform of Update: look up the advisory by ID
(failing when absent), append the request's event, replace the advisory, and
re-sort the list by ID. -/
def updateTransform (req : Request) : Document → Except AdvisoryError (List Advisory) :=
  fun doc =>
    match advisoriesGet doc.advisories req.vulnerabilityID with
    | none => Except.error (AdvisoryError.advisoryNotFound req.vulnerabilityID)
    | some adv =>
      let adv2 := { adv with events := adv.events ++ [req.event.getD zeroEvent] }
      Except.ok (sortAdvisories (advisoriesUpdate doc.advisories req.vulnerabilityID adv2))

/-- The second Index.Update transaction shared by Update and Create's
one-document case: upgrade the schema version to the current version. -/
def updateSchemaPhase (req : Request) (ok2 : Bool) (st1 : IndexState) :
    Except AdvisoryError Unit × IndexState :=
  match indexUpdate req.package (newSchemaVersionSectionUpdater SchemaVersion) ok2 st1 with
  | Except.error e => (Except.error e, st1)
  | Except.ok st2 => (Except.ok (), st2)

/-- advisory.Update.  Mirrors the Go control flow: no request validation; the
selection must hold exactly one document; then one Index.Update transaction
for the advisories section followed by a second Index.Update transaction for
the schema version.  ok1 and ok2 are the write outcomes of the two
transactions; on failure the state reached so far is returned. -/
def Update (req : Request) (ok1 ok2 : Bool) (st : IndexState) :
    Except AdvisoryError Unit × IndexState :=
  let count := (whereName st req.package).length
  if count = 1 then
    match indexUpdate req.package (newAdvisoriesSectionUpdater (updateTransform req)) ok1 st with
    | Except.error e => (Except.error e, st)
    | Except.ok st1 => updateSchemaPhase req ok2 st1
  else (Except.error (AdvisoryError.documentCount count), st)

/-- The advisories-section transform of Create's one-document case: fail when
the advisory already exists, otherwise append the new advisory built from the
request and re-sort the list by ID. -/
def createTransform (req : Request) : Document → Except AdvisoryError (List Advisory) :=
  fun doc =>
    if (advisoriesGet doc.advisories req.vulnerabilityID).isSome then
      Except.error (AdvisoryError.duplicateAdvisory req.vulnerabilityID req.package)
    else
      Except.ok (sortAdvisories (doc.advisories
        ++ [{ id := req.vulnerabilityID, aliases := req.aliases,
              events := [req.event.getD zeroEvent] }]))

/-- createAdvisoryConfig: synthesize a new document for the package under the
deterministic file name and add it to the index. -/
def createAdvisoryConfig (req : Request) (ok1 : Bool) (st : IndexState) :
    Except AdvisoryError Unit × IndexState :=
  indexCreate (req.package ++ ".advisories.yaml")
    { schemaVersion := SchemaVersion, package := { name := req.package },
      advisories := [{ id := req.vulnerabilityID, aliases := req.aliases,
                       events := [req.event.getD zeroEvent] }] }
    ok1 st

/-- advisory.Create.  Mirrors the Go control flow: validate the request, then
branch on the number of documents for the package: zero creates a fresh
document, one appends a new advisory through an Index.Update transaction
followed by the schema-version transaction, anything else fails. -/
def Create (req : Request) (ok1 ok2 : Bool) (st : IndexState) :
    Except AdvisoryError Unit × IndexState :=
  match requestValidate req with
  | f :: fs => (Except.error (AdvisoryError.invalidRequest (f :: fs)), st)
  | [] =>
    let count := (whereName st req.package).length
    if count = 0 then createAdvisoryConfig req ok1 st
    else if count = 1 then
      match indexUpdate req.package (newAdvisoriesSectionUpdater (createTransform req)) ok1 st with
      | Except.error e => (Except.error e, st)
      | Except.ok st1 => updateSchemaPhase req ok2 st1
    else (Except.error (AdvisoryError.documentCount count), st)

/-! ### Helper lemmas about the index operations -/

lemma sortAdvisories_perm (l : List Advisory) : List.Perm (sortAdvisories l) l :=
  List.perm_insertionSort advLe l

lemma sortAdvisories_sorted (l : List Advisory) : List.Sorted advLe (sortAdvisories l) :=
  List.sorted_insertionSort advLe l

lemma advisoriesGet_eq_some {l : List Advisory} {id : String} {a : Advisory}
    (h : advisoriesGet l id = some a) : a ∈ l ∧ a.id = id := by
  refine ⟨List.mem_of_find?_eq_some h, ?_⟩
  have := List.find?_some h
  simpa [beq_iff_eq] using this

lemma advisoriesGet_eq_none {l : List Advisory} {id : String} :
    advisoriesGet l id = none ↔ ∀ a ∈ l, a.id ≠ id := by
  constructor
  · intro h a ha
    have := List.find?_eq_none.mp h a ha
    simpa [beq_iff_eq] using this
  · intro h
    exact List.find?_eq_none.mpr (fun a ha => by simpa [beq_iff_eq] using h a ha)

lemma advisoriesGet_of_nodup {l : List Advisory} {id : String} {a : Advisory}
    (hnd : (l.map (fun x => x.id)).Nodup) (ha : a ∈ l) (hid : a.id = id) :
    advisoriesGet l id = some a := by
  induction l with
  | nil => cases ha
  | cons b l ih =>
    rcases List.mem_cons.mp ha with rfl | ha2
    · simp [advisoriesGet, List.find?, hid]
    · have hb : (b.id == id) = false := by
        simp only [beq_eq_false_iff_ne, ne_eq]
        intro hbid
        have hmem : a.id ∈ l.map (fun x => x.id) := List.mem_map_of_mem _ ha2
        have heq : b.id = a.id := by rw [hbid, hid]
        exact (List.nodup_cons.mp hnd).1 (by simpa [heq] using hmem)
      have hnd2 := (List.nodup_cons.mp hnd).2
      simpa [advisoriesGet, List.find?, hb] using ih hnd2 ha2

lemma advisoriesGet_congr_perm {l l2 : List Advisory} {id : String}
    (hp : List.Perm l l2) (hnd : (l.map (fun x => x.id)).Nodup) :
    advisoriesGet l id = advisoriesGet l2 id := by
  have hnd2 : (l2.map (fun x => x.id)).Nodup := ((hp.map _).nodup_iff).mp hnd
  cases hget : advisoriesGet l id with
  | some a =>
    obtain ⟨ha, hid⟩ := advisoriesGet_eq_some hget
    exact (advisoriesGet_of_nodup hnd2 (hp.mem_iff.mp ha) hid).symm
  | none =>
    have := advisoriesGet_eq_none.mp hget
    exact (advisoriesGet_eq_none.mpr (fun a ha => this a (hp.mem_iff.mpr ha))).symm

lemma ids_advisoriesUpdate {l : List Advisory} {id : String} {adv : Advisory}
    (h : adv.id = id) :
    (advisoriesUpdate l id adv).map (fun x => x.id) = l.map (fun x => x.id) := by
  unfold advisoriesUpdate
  rw [List.map_map]
  have hfun : ((fun x => x.id) ∘ fun a : Advisory => if a.id = id then adv else a)
      = fun a : Advisory => a.id := by
    funext a
    by_cases ha : a.id = id
    · simp [ha, h]
    · simp [ha]
  rw [hfun]

lemma mem_advisoriesUpdate_of_ne {l : List Advisory} {id : String} {adv a : Advisory}
    (ha : a ∈ l) (hne : a.id ≠ id) : a ∈ advisoriesUpdate l id adv := by
  have : (if a.id = id then adv else a) ∈ advisoriesUpdate l id adv :=
    List.mem_map_of_mem _ ha
  rwa [if_neg hne] at this

lemma mem_advisoriesUpdate_self {l : List Advisory} {id : String} {adv b : Advisory}
    (hb : b ∈ l) (hid : b.id = id) : adv ∈ advisoriesUpdate l id adv := by
  have : (if b.id = id then adv else b) ∈ advisoriesUpdate l id adv :=
    List.mem_map_of_mem _ hb
  rwa [if_pos hid] at this

lemma mem_of_mem_advisoriesUpdate {l : List Advisory} {id : String} {adv a : Advisory}
    (ha : a ∈ advisoriesUpdate l id adv) (hadv : adv.id = id) (hne : a.id ≠ id) :
    a ∈ l := by
  obtain ⟨b, hb, hba⟩ := List.mem_map.mp ha
  by_cases hbid : b.id = id
  · rw [if_pos hbid] at hba
    exact absurd (hba ▸ hadv) hne
  · rw [if_neg hbid] at hba
    exact hba ▸ hb

lemma whereName_structured (pre post : IndexState) (fn : String) (doc : Document)
    (name : String)
    (hpre : ∀ p ∈ pre, p.2.package.name ≠ name)
    (hpost : ∀ p ∈ post, p.2.package.name ≠ name)
    (hdoc : doc.package.name = name) :
    whereName (pre ++ (fn, doc) :: post) name = [(fn, doc)] := by
  unfold whereName
  rw [List.filter_append, List.filter_cons]
  have h1 : pre.filter (fun p => p.2.package.name == name) = [] := by
    rw [List.filter_eq_nil_iff]
    intro p hp
    simp [hpre p hp]
  have h2 : post.filter (fun p => p.2.package.name == name) = [] := by
    rw [List.filter_eq_nil_iff]
    intro p hp
    simp [hpost p hp]
  simp [h1, h2, hdoc]

lemma updateDocs_no_match (tr : Document → Except AdvisoryError Document) (name : String) :
    ∀ st : IndexState, (∀ p ∈ st, p.2.package.name ≠ name) →
      updateDocs tr name st = Except.ok st
  | [], _ => rfl
  | (fn, d) :: rest, h => by
    have hd : d.package.name ≠ name := h (fn, d) (List.mem_cons_self _ _)
    have hrest := updateDocs_no_match tr name rest (fun p hp => h p (List.mem_cons_of_mem _ hp))
    simp only [updateDocs, if_neg hd, hrest]

lemma updateDocs_structured_ok (tr : Document → Except AdvisoryError Document)
    (name : String) (pre post : IndexState) (fn : String) (doc d2 : Document)
    (hpre : ∀ p ∈ pre, p.2.package.name ≠ name)
    (hpost : ∀ p ∈ post, p.2.package.name ≠ name)
    (hdoc : doc.package.name = name)
    (htr : tr doc = Except.ok d2) :
    updateDocs tr name (pre ++ (fn, doc) :: post) = Except.ok (pre ++ (fn, d2) :: post) := by
  induction pre with
  | nil =>
    simp only [List.nil_append, updateDocs, if_pos hdoc, htr,
      updateDocs_no_match tr name post hpost]
  | cons p pre ih =>
    obtain ⟨pfn, pd⟩ := p
    have hp : pd.package.name ≠ name := hpre (pfn, pd) (List.mem_cons_self _ _)
    have ih2 := ih (fun q hq => hpre q (List.mem_cons_of_mem _ hq))
    simp only [List.cons_append, updateDocs, if_neg hp, List.append_eq, ih2]

lemma updateDocs_structured_err (tr : Document → Except AdvisoryError Document)
    (name : String) (pre post : IndexState) (fn : String) (doc : Document)
    (e : AdvisoryError)
    (hpre : ∀ p ∈ pre, p.2.package.name ≠ name)
    (hdoc : doc.package.name = name)
    (htr : tr doc = Except.error e) :
    updateDocs tr name (pre ++ (fn, doc) :: post) = Except.error e := by
  induction pre with
  | nil => simp only [List.nil_append, updateDocs, if_pos hdoc, htr]
  | cons p pre ih =>
    obtain ⟨pfn, pd⟩ := p
    have hp : pd.package.name ≠ name := hpre (pfn, pd) (List.mem_cons_self _ _)
    have ih2 := ih (fun q hq => hpre q (List.mem_cons_of_mem _ hq))
    simp only [List.cons_append, updateDocs, if_neg hp, List.append_eq, ih2]

lemma updateDocs_error_origin (tr : Document → Except AdvisoryError Document)
    (name : String) :
    ∀ st : IndexState, ∀ e : AdvisoryError,
      updateDocs tr name st = Except.error e → ∃ d : Document, tr d = Except.error e
  | [], e, h => by simp [updateDocs] at h
  | (fn, d) :: rest, e, h => by
    by_cases hd : d.package.name = name
    · simp only [updateDocs, if_pos hd] at h
      cases htr : tr d with
      | error e2 =>
        rw [htr] at h
        injection h with h2
        exact ⟨d, h2 ▸ htr⟩
      | ok d2 =>
        rw [htr] at h
        cases hrest : updateDocs tr name rest with
        | error e2 =>
          rw [hrest] at h
          injection h with h2
          exact h2 ▸ updateDocs_error_origin tr name rest e2 hrest
        | ok rest2 => rw [hrest] at h; cases h
    · simp only [updateDocs, if_neg hd] at h
      cases hrest : updateDocs tr name rest with
      | error e2 =>
        rw [hrest] at h
        injection h with h2
        exact h2 ▸ updateDocs_error_origin tr name rest e2 hrest
      | ok rest2 => rw [hrest] at h; cases h

lemma schemaUpdater_ok (v : String) (d : Document) :
    newSchemaVersionSectionUpdater v d = Except.ok { d with schemaVersion := v } := rfl

/-- The document produced by a successful Update transaction for the selected
document: event appended, advisory replaced, list re-sorted. -/
def updatedDocument (req : Request) (doc : Document) (adv : Advisory) : Document :=
  { schemaVersion := SchemaVersion, package := doc.package,
    advisories := sortAdvisories (advisoriesUpdate doc.advisories req.vulnerabilityID
      { adv with events := adv.events ++ [req.event.getD zeroEvent] }) }

lemma update_success_shape (req : Request) (pre post : IndexState) (fn : String)
    (doc : Document) (adv : Advisory)
    (hpre : ∀ p ∈ pre, p.2.package.name ≠ req.package)
    (hpost : ∀ p ∈ post, p.2.package.name ≠ req.package)
    (hdoc : doc.package.name = req.package)
    (hget : advisoriesGet doc.advisories req.vulnerabilityID = some adv) :
    Update req true true (pre ++ (fn, doc) :: post)
      = (Except.ok (), pre ++ (fn, updatedDocument req doc adv) :: post) := by
  have hwhere := whereName_structured pre post fn doc req.package hpre hpost hdoc
  have htr1 : newAdvisoriesSectionUpdater (updateTransform req) doc
      = Except.ok { doc with advisories := (updatedDocument req doc adv).advisories } := by
    simp [newAdvisoriesSectionUpdater, updateTransform, hget, updatedDocument]
  have hud1 := updateDocs_structured_ok (newAdvisoriesSectionUpdater (updateTransform req))
    req.package pre post fn doc _ hpre hpost hdoc htr1
  have hud2 := updateDocs_structured_ok (newSchemaVersionSectionUpdater SchemaVersion)
    req.package pre post fn { doc with advisories := (updatedDocument req doc adv).advisories }
    (updatedDocument req doc adv) hpre hpost hdoc rfl
  simp only [Update, hwhere, List.length_cons, List.length_nil, Nat.zero_add, if_pos,
    indexUpdate, updateSchemaPhase, hud1, hud2, if_true]

/-- The document produced by a successful one-document Create transaction for
the selected document: new advisory appended, list re-sorted. -/
def createdInDocument (req : Request) (doc : Document) : Document :=
  { schemaVersion := SchemaVersion, package := doc.package,
    advisories := sortAdvisories (doc.advisories
      ++ [{ id := req.vulnerabilityID, aliases := req.aliases,
            events := [req.event.getD zeroEvent] }]) }

lemma create_case1_shape (req : Request) (pre post : IndexState) (fn : String)
    (doc : Document)
    (hval : requestValidate req = [])
    (hpre : ∀ p ∈ pre, p.2.package.name ≠ req.package)
    (hpost : ∀ p ∈ post, p.2.package.name ≠ req.package)
    (hdoc : doc.package.name = req.package)
    (hget : advisoriesGet doc.advisories req.vulnerabilityID = none) :
    Create req true true (pre ++ (fn, doc) :: post)
      = (Except.ok (), pre ++ (fn, createdInDocument req doc) :: post) := by
  have hwhere := whereName_structured pre post fn doc req.package hpre hpost hdoc
  have htr1 : newAdvisoriesSectionUpdater (createTransform req) doc
      = Except.ok { doc with advisories := (createdInDocument req doc).advisories } := by
    simp [newAdvisoriesSectionUpdater, createTransform, hget, createdInDocument]
  have hud1 := updateDocs_structured_ok (newAdvisoriesSectionUpdater (createTransform req))
    req.package pre post fn doc _ hpre hpost hdoc htr1
  have hud2 := updateDocs_structured_ok (newSchemaVersionSectionUpdater SchemaVersion)
    req.package pre post fn { doc with advisories := (createdInDocument req doc).advisories }
    (createdInDocument req doc) hpre hpost hdoc rfl
  simp only [Create, hval, hwhere, List.length_cons, List.length_nil, Nat.zero_add,
    indexUpdate, updateSchemaPhase, hud1, hud2, if_true]
  norm_num

lemma updateTransform_error (req : Request) (d : Document) (e : AdvisoryError)
    (h : newAdvisoriesSectionUpdater (updateTransform req) d = Except.error e) :
    e = AdvisoryError.advisoryNotFound req.vulnerabilityID := by
  unfold newAdvisoriesSectionUpdater updateTransform at h
  cases hget : advisoriesGet d.advisories req.vulnerabilityID with
  | none => rw [hget] at h; injection h with h2; exact h2.symm
  | some adv => rw [hget] at h; cases h

lemma indexUpdate_error (name : String) (tr : Document → Except AdvisoryError Document)
    (ok1 : Bool) (st : IndexState) (e : AdvisoryError)
    (h : indexUpdate name tr ok1 st = Except.error e) :
    (∃ d : Document, tr d = Except.error e) ∨ e = AdvisoryError.ioFailure := by
  unfold indexUpdate at h
  cases hud : updateDocs tr name st with
  | error e2 =>
    rw [hud] at h
    injection h with h2
    exact Or.inl (h2 ▸ updateDocs_error_origin tr name st e2 hud)
  | ok st2 =>
    rw [hud] at h
    cases ok1 with
    | true => cases h
    | false => simp only [Bool.false_eq_true, if_false] at h; injection h with h2; exact Or.inr h2.symm

lemma updateSchemaPhase_fst (req : Request) (ok2 : Bool) (st1 : IndexState) :
    (updateSchemaPhase req ok2 st1).fst = Except.ok ()
      ∨ (updateSchemaPhase req ok2 st1).fst = Except.error AdvisoryError.ioFailure := by
  unfold updateSchemaPhase
  cases h2 : indexUpdate req.package (newSchemaVersionSectionUpdater SchemaVersion) ok2 st1 with
  | error e =>
    rcases indexUpdate_error _ _ _ _ _ h2 with ⟨d, hd⟩ | hio
    · rw [schemaUpdater_ok] at hd
      cases hd
    · exact Or.inr (by rw [hio])
  | ok st2 => exact Or.inl rfl

lemma update_never_invalidRequest (req : Request) (ok1 ok2 : Bool) (st : IndexState)
    (fs : List String) :
    (Update req ok1 ok2 st).fst ≠ Except.error (AdvisoryError.invalidRequest fs) := by
  unfold Update
  by_cases hc : (whereName st req.package).length = 1
  · simp only [if_pos hc]
    cases h1 : indexUpdate req.package (newAdvisoriesSectionUpdater (updateTransform req)) ok1 st with
    | error e =>
      intro hcontra
      injection hcontra with h2
      rcases indexUpdate_error _ _ _ _ _ h1 with ⟨d, hd⟩ | hio
      · rw [h2] at hd
        exact absurd (updateTransform_error req d _ hd) (by simp)
      · rw [h2] at hio
        cases hio
    | ok st1 =>
      intro hcontra
      rcases updateSchemaPhase_fst req ok2 st1 with hok | hio
      · rw [hok] at hcontra
        cases hcontra
      · rw [hio] at hcontra
        injection hcontra with h3
        cases h3
  · simp only [if_neg hc]
    simp

lemma updateDocs_preserves {α : Type} (g : String × Document → α)
    (tr : Document → Except AdvisoryError Document) (name : String)
    (hg : ∀ (fn : String) (d d2 : Document), tr d = Except.ok d2 → g (fn, d2) = g (fn, d)) :
    ∀ st st2 : IndexState, updateDocs tr name st = Except.ok st2 → st2.map g = st.map g
  | [], st2, h => by
    injection h with h2
    rw [← h2]
  | (fn, d) :: rest, st2, h => by
    by_cases hd : d.package.name = name
    · simp only [updateDocs, if_pos hd] at h
      cases htr : tr d with
      | error e => rw [htr] at h; cases h
      | ok d2 =>
        rw [htr] at h
        cases hrest : updateDocs tr name rest with
        | error e => rw [hrest] at h; cases h
        | ok rest2 =>
          rw [hrest] at h
          injection h with h2
          rw [← h2]
          simp only [List.map_cons]
          rw [hg fn d d2 htr, updateDocs_preserves g tr name hg rest rest2 hrest]
    · simp only [updateDocs, if_neg hd] at h
      cases hrest : updateDocs tr name rest with
      | error e => rw [hrest] at h; cases h
      | ok rest2 =>
        rw [hrest] at h
        injection h with h2
        rw [← h2]
        simp only [List.map_cons]
        rw [updateDocs_preserves g tr name hg rest rest2 hrest]

lemma advisoriesUpdater_preserves (t : Document → Except AdvisoryError (List Advisory))
    (d d2 : Document) (h : newAdvisoriesSectionUpdater t d = Except.ok d2) :
    d2.schemaVersion = d.schemaVersion ∧ d2.package = d.package := by
  unfold newAdvisoriesSectionUpdater at h
  cases ht : t d with
  | error e => rw [ht] at h; cases h
  | ok advs =>
    rw [ht] at h
    injection h with h2
    rw [← h2]
    exact ⟨rfl, rfl⟩

/-- After a successful advisories-section transaction, every document keeps
its file name and schema version: the first transaction of Update never
touches the schema version. -/
lemma update_phase1_schemaVersions (req : Request) (ok1 : Bool) (st st1 : IndexState)
    (h1 : indexUpdate req.package (newAdvisoriesSectionUpdater (updateTransform req)) ok1 st
      = Except.ok st1) :
    st1.map (fun p => (p.1, p.2.schemaVersion)) = st.map (fun p => (p.1, p.2.schemaVersion)) := by
  unfold indexUpdate at h1
  cases hud : updateDocs (newAdvisoriesSectionUpdater (updateTransform req)) req.package st with
  | error e => rw [hud] at h1; cases h1
  | ok st2 =>
    rw [hud] at h1
    cases ok1 with
    | true =>
      injection h1 with h2
      rw [← h2]
      exact updateDocs_preserves _ _ _
        (fun fn d d2 hd => by rw [(advisoriesUpdater_preserves _ d d2 hd).1]) st st2 hud
    | false => cases h1

lemma update_phase1_error (req : Request) (ok1 ok2 : Bool) (st : IndexState)
    (e : AdvisoryError)
    (hc : (whereName st req.package).length = 1)
    (h1 : indexUpdate req.package (newAdvisoriesSectionUpdater (updateTransform req)) ok1 st
      = Except.error e) :
    Update req ok1 ok2 st = (Except.error e, st) := by
  simp only [Update, hc, if_pos, h1]

lemma update_phase2_failure (req : Request) (ok1 : Bool) (st st1 : IndexState)
    (hc : (whereName st req.package).length = 1)
    (h1 : indexUpdate req.package (newAdvisoriesSectionUpdater (updateTransform req)) ok1 st
      = Except.ok st1) :
    Update req ok1 false st = (Except.error AdvisoryError.ioFailure, st1) := by
  have hud : ∃ st2, updateDocs (newSchemaVersionSectionUpdater SchemaVersion) req.package st1
      = Except.ok st2 := by
    clear h1 hc
    induction st1 with
    | nil => exact ⟨[], rfl⟩
    | cons p rest ih =>
      obtain ⟨rest2, hrest⟩ := ih
      obtain ⟨fn, d⟩ := p
      by_cases hd : d.package.name = req.package
      · exact ⟨(fn, { d with schemaVersion := SchemaVersion }) :: rest2, by
          simp only [updateDocs, if_pos hd, schemaUpdater_ok, hrest]⟩
      · exact ⟨(fn, d) :: rest2, by simp only [updateDocs, if_neg hd, hrest]⟩
  obtain ⟨st2, hud2⟩ := hud
  have hind2 : indexUpdate req.package (newSchemaVersionSectionUpdater SchemaVersion) false st1
      = Except.error AdvisoryError.ioFailure := by
    unfold indexUpdate
    rw [hud2]
    simp
  simp only [Update, hc, if_pos, h1, updateSchemaPhase, hind2]

lemma update_phases_ok (req : Request) (st st1 st2 : IndexState)
    (hc : (whereName st req.package).length = 1)
    (h1 : indexUpdate req.package (newAdvisoriesSectionUpdater (updateTransform req)) true st
      = Except.ok st1)
    (h2 : indexUpdate req.package (newSchemaVersionSectionUpdater SchemaVersion) true st1
      = Except.ok st2) :
    Update req true true st = (Except.ok (), st2) := by
  simp only [Update, hc, if_pos, h1, updateSchemaPhase, h2]

/-- When the selected document does not contain the requested advisory, the
transform fails inside the first transaction and the store is untouched. -/
lemma update_advisory_not_found (req : Request) (ok1 ok2 : Bool)
    (pre post : IndexState) (fn : String) (doc : Document)
    (hpre : ∀ p ∈ pre, p.2.package.name ≠ req.package)
    (hpost : ∀ p ∈ post, p.2.package.name ≠ req.package)
    (hdoc : doc.package.name = req.package)
    (hget : advisoriesGet doc.advisories req.vulnerabilityID = none) :
    Update req ok1 ok2 (pre ++ (fn, doc) :: post)
      = (Except.error (AdvisoryError.advisoryNotFound req.vulnerabilityID),
         pre ++ (fn, doc) :: post) := by
  have hwhere := whereName_structured pre post fn doc req.package hpre hpost hdoc
  have htr : newAdvisoriesSectionUpdater (updateTransform req) doc
      = Except.error (AdvisoryError.advisoryNotFound req.vulnerabilityID) := by
    simp [newAdvisoriesSectionUpdater, updateTransform, hget]
  have hud := updateDocs_structured_err (newAdvisoriesSectionUpdater (updateTransform req))
    req.package pre post fn doc _ hpre hdoc htr
  simp only [Update, hwhere, List.length_cons, List.length_nil, Nat.zero_add, if_pos,
    indexUpdate, hud]

lemma requestValidate_event {req : Request} (h : requestValidate req = []) :
    ∃ e : Event, req.event = some e := by
  unfold requestValidate at h
  rcases List.append_eq_nil.mp h with ⟨h2, -⟩
  rcases List.append_eq_nil.mp h2 with ⟨-, h4⟩
  cases he : req.event with
  | some e => exact ⟨e, rfl⟩
  | none => rw [he] at h4; simp [Option.isNone] at h4

lemma createAdvisoryConfig_ok (req : Request) (st : IndexState)
    (hfn : ∀ p ∈ st, p.1 ≠ req.package ++ ".advisories.yaml") :
    createAdvisoryConfig req true st
      = (Except.ok (), st ++ [(req.package ++ ".advisories.yaml",
          { schemaVersion := SchemaVersion, package := { name := req.package },
            advisories := [{ id := req.vulnerabilityID, aliases := req.aliases,
                             events := [req.event.getD zeroEvent] }] })]) := by
  unfold createAdvisoryConfig indexCreate
  have hany : (st.any (fun p => p.1 == req.package ++ ".advisories.yaml")) = false := by
    rw [List.any_eq_false]
    intro p hp
    simp [hfn p hp]
  rw [hany]
  simp

lemma create_case0_shape (req : Request) (b : Bool) (st : IndexState)
    (hval : requestValidate req = [])
    (hw : whereName st req.package = [])
    (hfn : ∀ p ∈ st, p.1 ≠ req.package ++ ".advisories.yaml") :
    Create req true b st
      = (Except.ok (), st ++ [(req.package ++ ".advisories.yaml",
          { schemaVersion := SchemaVersion, package := { name := req.package },
            advisories := [{ id := req.vulnerabilityID, aliases := req.aliases,
                             events := [req.event.getD zeroEvent] }] })]) := by
  simp only [Create, hval, hw, List.length_nil, if_pos, createAdvisoryConfig_ok req st hfn]

/-! ### Helper lemmas about the exporter -/

lemma buildIndexLoop_states : ∀ indices : List IndexState, (buildIndexLoop indices).snd = indices
  | [] => rfl
  | st :: rest => by
    have ih := buildIndexLoop_states rest
    unfold buildIndexLoop
    cases h : collectDocEntries (selectConfigurations st) with
    | error e => rfl
    | ok pes =>
      cases pes with
      | nil => rfl
      | cons pe pes2 =>
        cases hb : buildIndexLoop rest with
        | mk r rest2 =>
          rw [hb] at ih
          simp only at ih
          cases r with
          | error e => simpa using ih
          | ok more => simpa using ih

lemma buildSecurityDatabase_snd (opts : BuildOptions) (indices : List IndexState) :
    (BuildSecurityDatabase opts indices).snd = indices := by
  unfold BuildSecurityDatabase
  have h := buildIndexLoop_states indices
  cases hb : buildIndexLoop indices with
  | mk r sts =>
    rw [hb] at h
    simp only at h
    cases r with
    | error e => simpa using h
    | ok pkgs => simpa using h

lemma docEntry_some_secfixes (doc : Document) (pe : PackageEntry)
    (h : docEntry doc = Except.ok (some pe)) : pe.secfixes ≠ [] := by
  unfold docEntry at h
  by_cases hadv : doc.advisories = []
  · rw [if_pos hadv] at h
    injection h with h2
    exact Option.noConfusion h2
  · rw [if_neg hadv] at h
    cases hsf : docSecfixes [] (sortAdvisories doc.advisories) with
    | error e => rw [hsf] at h; cases h
    | ok sf =>
      rw [hsf] at h
      have h2 : (if sf = [] then (Except.ok none : Except BuildError (Option PackageEntry))
          else Except.ok (some { name := doc.package.name, secfixes := sf }))
          = Except.ok (some pe) := h
      by_cases hnil : sf = []
      · rw [if_pos hnil] at h2
        injection h2 with h3
        exact Option.noConfusion h3
      · rw [if_neg hnil] at h2
        injection h2 with h3
        injection h3 with h4
        rw [← h4]
        exact hnil

lemma collectDocEntries_secfixes_ne_nil :
    ∀ (docs : List Document) (pes : List PackageEntry),
      collectDocEntries docs = Except.ok pes → ∀ pe ∈ pes, pe.secfixes ≠ []
  | [], pes, h => by
    injection h with h2
    rw [← h2]
    intro pe hpe
    cases hpe
  | doc :: rest, pes, h => by
    unfold collectDocEntries at h
    cases hd : docEntry doc with
    | error e => rw [hd] at h; cases h
    | ok o =>
      rw [hd] at h
      cases o with
      | none => exact collectDocEntries_secfixes_ne_nil rest pes h
      | some pe2 =>
        cases hrest : collectDocEntries rest with
        | error e => rw [hrest] at h; cases h
        | ok pes2 =>
          rw [hrest] at h
          injection h with h2
          rw [← h2]
          intro pe hpe
          rcases List.mem_cons.mp hpe with rfl | hmem
          · exact docEntry_some_secfixes doc pe hd
          · exact collectDocEntries_secfixes_ne_nil rest pes2 hrest pe hmem

lemma buildIndexLoop_ok_contributions :
    ∀ (indices : List IndexState) (pes : List PackageEntry),
      (buildIndexLoop indices).fst = Except.ok pes →
      ∀ st ∈ indices, ∃ p2 : List PackageEntry,
        collectDocEntries (selectConfigurations st) = Except.ok p2 ∧ p2 ≠ []
  | [], pes, _, st, hmem => by cases hmem
  | st0 :: rest, pes, h, st, hmem => by
    unfold buildIndexLoop at h
    cases hc : collectDocEntries (selectConfigurations st0) with
    | error e => rw [hc] at h; cases h
    | ok p0 =>
      rw [hc] at h
      cases p0 with
      | nil => cases h
      | cons pe0 pes0 =>
        cases hb : buildIndexLoop rest with
        | mk r rest2 =>
          rw [hb] at h
          cases r with
          | error e => cases h
          | ok more =>
            rcases List.mem_cons.mp hmem with rfl | hmem2
            · exact ⟨pe0 :: pes0, hc, by simp⟩
            · exact buildIndexLoop_ok_contributions rest more (by rw [hb]) st hmem2

lemma buildIndexLoop_empty_contribution :
    ∀ indices : List IndexState,
      (∀ st ∈ indices, ∃ p2 : List PackageEntry,
        collectDocEntries (selectConfigurations st) = Except.ok p2) →
      (∃ st ∈ indices, collectDocEntries (selectConfigurations st) = Except.ok []) →
      (buildIndexLoop indices).fst = Except.error BuildError.noPackageSecurityData
  | [], _, hex => by
    obtain ⟨st, hmem, -⟩ := hex
    cases hmem
  | st0 :: rest, hall, hex => by
    obtain ⟨p0, hp0⟩ := hall st0 (List.mem_cons_self _ _)
    unfold buildIndexLoop
    rw [hp0]
    cases p0 with
    | nil => rfl
    | cons pe0 pes0 =>
      have hrest : (buildIndexLoop rest).fst = Except.error BuildError.noPackageSecurityData := by
        apply buildIndexLoop_empty_contribution rest
          (fun st hmem => hall st (List.mem_cons_of_mem _ hmem))
        obtain ⟨st, hmem, hst⟩ := hex
        rcases List.mem_cons.mp hmem with rfl | hmem2
        · rw [hp0] at hst
          injection hst with h2
          cases h2
        · exact ⟨st, hmem2, hst⟩
      cases hb : buildIndexLoop rest with
      | mk r rest2 =>
        rw [hb] at hrest
        simp only at hrest
        rw [hrest]

lemma advisorySecfixesEntry_nonempty (adv : Advisory) (h : adv.events ≠ []) :
    advisorySecfixesEntry adv
      = match (SortedEvents adv.events).getLast? with
        | none => Except.error BuildError.panicked
        | some latest =>
          match latest.type with
          | EventType.fixed =>
            match latest.data with
            | EventData.fixed version => Except.ok (some (version, adv.id))
            | EventData.noData => Except.error BuildError.panicked
          | EventType.falsePositiveDetermination => Except.ok (some (NAK, adv.id))
          | _ => Except.ok none := by
  unfold advisorySecfixesEntry
  rw [if_neg (fun hh => h (List.length_eq_zero.mp hh)), latestEvent_eq_getLast?]

/-! ### Concrete store states, documents and requests used by the
counterexamples and witnesses -/

/-- A Fixed event at time 1 carrying fixed version 8.4.0. -/
def evFixed1 : Event :=
  { timestamp := 1, type := EventType.fixed, data := EventData.fixed ("8.4.0") }

/-- A false-positive determination at time 2. -/
def evFP2 : Event :=
  { timestamp := 2, type := EventType.falsePositiveDetermination, data := EventData.noData }

/-- An under-investigation determination at time 3. -/
def evInv3 : Event :=
  { timestamp := 3, type := EventType.underInvestigation, data := EventData.noData }

def advCurl : Advisory :=
  { id := "CVE-2024-0001", aliases := [], events := [evFixed1] }

def docCurl : Document :=
  { schemaVersion := "1", package := { name := "curl" }, advisories := [advCurl] }

def stCurl : IndexState := [("curl.advisories.yaml", docCurl)]

/-- A valid update request adding a false-positive event to the curl advisory. -/
def reqFP : Request :=
  { package := "curl", vulnerabilityID := "CVE-2024-0001", aliases := [], event := some evFP2 }

/-- An invalid request: the vulnerability ID is missing. -/
def reqNoVuln : Request :=
  { package := "curl", vulnerabilityID := "", aliases := [], event := some evFP2 }

/-- A valid create request for an empty store. -/
def reqCreate : Request :=
  { package := "curl", vulnerabilityID := "CVE-2024-0001", aliases := ["GHSA-xxxx"],
    event := some evFixed1 }

/-- The curl store after only the advisories-section transaction of Update
reqFP has been persisted: event appended, schema version still old. -/
def stCurlPartial : IndexState :=
  [("curl.advisories.yaml",
    { schemaVersion := "1", package := { name := "curl" },
      advisories := [{ id := "CVE-2024-0001", aliases := [], events := [evFixed1, evFP2] }] })]

/-- An advisory whose only (hence latest) event is an under-investigation
determination. -/
def advInv : Advisory := { id := "CVE-2024-0002", aliases := [], events := [evInv3] }

def docInv : Document :=
  { schemaVersion := "2", package := { name := "zlib" }, advisories := [advInv] }

def stInv : IndexState := [("zlib.advisories.yaml", docInv)]

/-! ### The claims -/

/-- C1: for every advisory with a non-empty event list, the status derived by
the event-fold of BuildSecurityDatabase is entirely determined by the last
event of the timestamp-sorted event list: the sort is sorted by timestamp,
stable (the events of each timestamp keep their original insertion order, so
no secondary key is ever used), the code's index picks exactly the last sorted
event, and two advisories with the same ID whose sorted event lists end in the
same event receive the same status, whatever their earlier events are. -/
theorem status_determined_by_last_sorted_event :
    (∀ es : List Event, List.Sorted evLe (SortedEvents es))
    ∧ (∀ (es : List Event) (t : Nat),
        (SortedEvents es).filter (fun x => x.timestamp == t)
          = es.filter (fun x => x.timestamp == t))
    ∧ (∀ es : List Event, latestEvent es = (SortedEvents es).getLast?)
    ∧ (∀ a b : Advisory, a.id = b.id → a.events ≠ [] → b.events ≠ [] →
        (SortedEvents a.events).getLast? = (SortedEvents b.events).getLast? →
        advisorySecfixesEntry a = advisorySecfixesEntry b) := by
  refine ⟨sortedEvents_sorted, sortedEvents_filter_timestamp, latestEvent_eq_getLast?, ?_⟩
  intro a b hid ha hb hlast
  rw [advisorySecfixesEntry_nonempty a ha, advisorySecfixesEntry_nonempty b hb, hlast, hid]

/-- Witness for C1 at concrete inputs: a two-event history and a one-event
history whose sorted lists end in the same false-positive event get the same
status. -/
theorem status_determined_by_last_sorted_event_witness :
    ([evFixed1, evFP2] : List Event) ≠ []
    ∧ advisorySecfixesEntry { id := "CVE-2024-0001", aliases := [], events := [evFixed1, evFP2] }
        = advisorySecfixesEntry { id := "CVE-2024-0001", aliases := ["GHSA-xxxx"], events := [evFP2] } :=
  ⟨by decide, status_determined_by_last_sorted_event.2.2.2
    { id := "CVE-2024-0001", aliases := [], events := [evFixed1, evFP2] }
    { id := "CVE-2024-0001", aliases := ["GHSA-xxxx"], events := [evFP2] }
    rfl (by decide) (by decide) (by decide)⟩

/-- C2 counterexample: for the one-document curl store, when the first
(advisories-section) transaction persists but the second (schema-version)
transaction fails, Update returns an error and leaves the document neither
entirely unchanged nor fully updated — the event is appended and the list
re-sorted, but the schema version is not upgraded.  So the schema-version
upgrade does not happen within the same Index.Update transaction as the
append. -/
theorem update_not_single_transaction_cx :
    (Update reqFP true false stCurl).fst = Except.error AdvisoryError.ioFailure
    ∧ (Update reqFP true false stCurl).snd = stCurlPartial
    ∧ stCurlPartial ≠ stCurl
    ∧ stCurlPartial ≠ (Update reqFP true true stCurl).snd := by
  refine ⟨by decide, by decide, by decide, by decide⟩

/-- C2 (amended): the advisory lookup, the AdvisoryNotFound failure, the event
append, the advisory replacement and the re-sort by ID occur within a single
Index.Update transaction, and the schema-version upgrade occurs in a second,
separate Index.Update transaction.  Each transaction is individually
all-or-nothing: if the first fails the store is entirely unchanged; if the
first succeeds and the second fails, Update errors and the store keeps the
advisories-section write, with every document's file name and schema version
as before; if both succeed Update reports success with the fully updated
store. -/
theorem update_two_transaction_atomicity (req : Request) (st : IndexState)
    (hc : (whereName st req.package).length = 1) :
    (∀ (ok1 ok2 : Bool) (e : AdvisoryError),
        indexUpdate req.package (newAdvisoriesSectionUpdater (updateTransform req)) ok1 st
          = Except.error e →
        Update req ok1 ok2 st = (Except.error e, st))
    ∧ (∀ (ok1 : Bool) (st1 : IndexState),
        indexUpdate req.package (newAdvisoriesSectionUpdater (updateTransform req)) ok1 st
          = Except.ok st1 →
        Update req ok1 false st = (Except.error AdvisoryError.ioFailure, st1)
          ∧ st1.map (fun p => (p.1, p.2.schemaVersion))
              = st.map (fun p => (p.1, p.2.schemaVersion)))
    ∧ (∀ st1 st2 : IndexState,
        indexUpdate req.package (newAdvisoriesSectionUpdater (updateTransform req)) true st
          = Except.ok st1 →
        indexUpdate req.package (newSchemaVersionSectionUpdater SchemaVersion) true st1
          = Except.ok st2 →
        Update req true true st = (Except.ok (), st2)) :=
  ⟨fun ok1 ok2 e h1 => update_phase1_error req ok1 ok2 st e hc h1,
   fun ok1 st1 h1 => ⟨update_phase2_failure req ok1 st st1 hc h1,
                      update_phase1_schemaVersions req ok1 st st1 h1⟩,
   fun st1 st2 h1 h2 => update_phases_ok req st st1 st2 hc h1 h2⟩

/-- Witness for C2 (amended) at the concrete curl store: the first transaction
succeeds and produces the partial state, so Update with a failing second
write errors while keeping that partial state. -/
theorem update_two_transaction_atomicity_witness :
    (whereName stCurl reqFP.package).length = 1
    ∧ Update reqFP true false stCurl = (Except.error AdvisoryError.ioFailure, stCurlPartial) :=
  ⟨by decide,
   ((update_two_transaction_atomicity reqFP stCurl (by decide)).2.1 true stCurlPartial
     (by decide)).1⟩

/-- C3 counterexample: a request with an empty vulnerability ID fails
validation (the missing field is reported by Validate), yet Update does not
fail with InvalidRequest: it reaches the index and fails with
AdvisoryNotFound, so no validation happens before the index query. -/
theorem update_skips_validation_cx :
    requestValidate reqNoVuln = ["vulnerability"]
    ∧ Update reqNoVuln true true stCurl
        = (Except.error (AdvisoryError.advisoryNotFound ("")), stCurl) := by
  refine ⟨by decide, by decide⟩

/-- C3 (amended): Update performs no request validation at all: it can never
fail with an InvalidRequest error, and a request whose vulnerability ID has no
advisory in the package's document — for instance an invalid request with an
empty vulnerability ID — fails with AdvisoryNotFound from inside the
transaction, leaving the store unchanged.  (Request validation happens in the
CLI layer before advisory.Update is called.) -/
theorem update_no_validation :
    (∀ (req : Request) (ok1 ok2 : Bool) (st : IndexState) (fs : List String),
        (Update req ok1 ok2 st).fst ≠ Except.error (AdvisoryError.invalidRequest fs))
    ∧ (∀ (req : Request) (ok1 ok2 : Bool) (pre post : IndexState) (fn : String)
        (doc : Document),
        (∀ p ∈ pre, p.2.package.name ≠ req.package) →
        (∀ p ∈ post, p.2.package.name ≠ req.package) →
        doc.package.name = req.package →
        advisoriesGet doc.advisories req.vulnerabilityID = none →
        Update req ok1 ok2 (pre ++ (fn, doc) :: post)
          = (Except.error (AdvisoryError.advisoryNotFound req.vulnerabilityID),
             pre ++ (fn, doc) :: post)) :=
  ⟨update_never_invalidRequest,
   fun req ok1 ok2 pre post fn doc hpre hpost hdoc hget =>
     update_advisory_not_found req ok1 ok2 pre post fn doc hpre hpost hdoc hget⟩

/-- Witness for C3 (amended) at the concrete curl store with the invalid
request: Update fails with AdvisoryNotFound and the store is unchanged. -/
theorem update_no_validation_witness :
    advisoriesGet docCurl.advisories reqNoVuln.vulnerabilityID = none
    ∧ Update reqNoVuln true true ([] ++ ("curl.advisories.yaml", docCurl) :: [])
        = (Except.error (AdvisoryError.advisoryNotFound reqNoVuln.vulnerabilityID),
           [] ++ ("curl.advisories.yaml", docCurl) :: []) :=
  ⟨by decide,
   update_no_validation.2 reqNoVuln true true [] [] ("curl.advisories.yaml") docCurl
     (by decide) (by decide) (by decide) (by decide)⟩

/-- C4: for every valid Create request on a store with no document for the
package (and, per the store's file-name invariant, no file under the derived
name), Create persists under the deterministic name package.advisories.yaml a
new document with the current schema version containing exactly one advisory
— the request's vulnerability ID and aliases — holding exactly one event, the
request's event. -/
theorem create_empty_store_document (req : Request) (b : Bool) (st : IndexState)
    (hval : requestValidate req = [])
    (hw : whereName st req.package = [])
    (hfn : ∀ p ∈ st, p.1 ≠ req.package ++ ".advisories.yaml") :
    ∃ e : Event, req.event = some e
      ∧ Create req true b st
        = (Except.ok (), st ++ [(req.package ++ ".advisories.yaml",
            { schemaVersion := SchemaVersion, package := { name := req.package },
              advisories := [{ id := req.vulnerabilityID, aliases := req.aliases,
                               events := [e] }] })]) := by
  obtain ⟨e, he⟩ := requestValidate_event hval
  refine ⟨e, he, ?_⟩
  rw [create_case0_shape req b st hval hw hfn, he]
  rfl

/-- Witness for C4: the concrete create request on the empty store yields the
expected single-advisory single-event document. -/
theorem create_empty_store_document_witness :
    requestValidate reqCreate = []
    ∧ ∃ e : Event, reqCreate.event = some e
      ∧ Create reqCreate true true []
        = (Except.ok (), [] ++ [(reqCreate.package ++ ".advisories.yaml",
            { schemaVersion := SchemaVersion, package := { name := reqCreate.package },
              advisories := [{ id := reqCreate.vulnerabilityID, aliases := reqCreate.aliases,
                               events := [e] }] })]) :=
  ⟨by decide, create_empty_store_document reqCreate true [] (by decide) (by decide) (by decide)⟩

/-- C5: for every successful Update of an existing advisory (one matching
document, advisory present, both writes succeed), the request's event is
appended at the end of the targeted advisory's event list — the count grows by
exactly one and the existing events stay a prefix, unchanged and in order —
and every other advisory of the document is unchanged (same advisories before
and after, up to the re-sort's reordering), with the advisory count
preserved. -/
theorem update_appends_single_event_frame (req : Request) (pre post : IndexState)
    (fn : String) (doc : Document) (adv : Advisory)
    (hpre : ∀ p ∈ pre, p.2.package.name ≠ req.package)
    (hpost : ∀ p ∈ post, p.2.package.name ≠ req.package)
    (hdoc : doc.package.name = req.package)
    (hnd : (doc.advisories.map (fun a => a.id)).Nodup)
    (hget : advisoriesGet doc.advisories req.vulnerabilityID = some adv) :
    Update req true true (pre ++ (fn, doc) :: post)
      = (Except.ok (), pre ++ (fn, updatedDocument req doc adv) :: post)
    ∧ advisoriesGet (updatedDocument req doc adv).advisories req.vulnerabilityID
        = some { adv with events := adv.events ++ [req.event.getD zeroEvent] }
    ∧ (adv.events ++ [req.event.getD zeroEvent]).length = adv.events.length + 1
    ∧ (adv.events ++ [req.event.getD zeroEvent]).take adv.events.length = adv.events
    ∧ (∀ a ∈ doc.advisories, a.id ≠ req.vulnerabilityID →
        a ∈ (updatedDocument req doc adv).advisories)
    ∧ (∀ a ∈ (updatedDocument req doc adv).advisories, a.id ≠ req.vulnerabilityID →
        a ∈ doc.advisories)
    ∧ (updatedDocument req doc adv).advisories.length = doc.advisories.length := by
  obtain ⟨hmem, hvid⟩ := advisoriesGet_eq_some hget
  have hvid2 : ({ adv with events := adv.events ++ [req.event.getD zeroEvent] } : Advisory).id
      = req.vulnerabilityID := hvid
  have hids := @ids_advisoriesUpdate doc.advisories req.vulnerabilityID
    { adv with events := adv.events ++ [req.event.getD zeroEvent] } hvid2
  have hnd2 : ((advisoriesUpdate doc.advisories req.vulnerabilityID
      { adv with events := adv.events ++ [req.event.getD zeroEvent] }).map
        (fun a => a.id)).Nodup := by
    rw [hids]
    exact hnd
  have hperm := sortAdvisories_perm (advisoriesUpdate doc.advisories req.vulnerabilityID
    { adv with events := adv.events ++ [req.event.getD zeroEvent] })
  have hnd3 : (((sortAdvisories (advisoriesUpdate doc.advisories req.vulnerabilityID
      { adv with events := adv.events ++ [req.event.getD zeroEvent] })).map
        (fun a => a.id))).Nodup := ((hperm.map _).nodup_iff).mpr hnd2
  refine ⟨update_success_shape req pre post fn doc adv hpre hpost hdoc hget, ?_, by simp,
    List.take_left _ _, ?_, ?_, ?_⟩
  · show advisoriesGet (sortAdvisories (advisoriesUpdate doc.advisories req.vulnerabilityID
        { adv with events := adv.events ++ [req.event.getD zeroEvent] })) req.vulnerabilityID = _
    rw [advisoriesGet_congr_perm hperm hnd3]
    exact advisoriesGet_of_nodup hnd2 (mem_advisoriesUpdate_self hmem hvid) hvid2
  · intro a ha hane
    show a ∈ sortAdvisories _
    exact (sortAdvisories_perm _).mem_iff.mpr (mem_advisoriesUpdate_of_ne ha hane)
  · intro a ha hane
    have ha2 : a ∈ advisoriesUpdate doc.advisories req.vulnerabilityID
        { adv with events := adv.events ++ [req.event.getD zeroEvent] } :=
      (sortAdvisories_perm _).mem_iff.mp ha
    exact mem_of_mem_advisoriesUpdate ha2 hvid2 hane
  · show (sortAdvisories _).length = _
    rw [(sortAdvisories_perm _).length_eq]
    exact List.length_map _ _

/-- Witness for C5 at the concrete curl store: updating the existing advisory
appends the false-positive event. -/
theorem update_appends_single_event_frame_witness :
    advisoriesGet docCurl.advisories reqFP.vulnerabilityID = some advCurl
    ∧ Update reqFP true true ([] ++ ("curl.advisories.yaml", docCurl) :: [])
        = (Except.ok (), [] ++ ("curl.advisories.yaml", updatedDocument reqFP docCurl advCurl) :: []) :=
  ⟨by decide,
   (update_appends_single_event_frame reqFP [] [] ("curl.advisories.yaml") docCurl advCurl
     (by decide) (by decide) (by decide) (by decide) (by decide)).1⟩

/-- C6: after every successful write the written document's advisory list is
sorted by advisory ID with unique IDs: (1) a Create on a package with no
document produces a fresh single-advisory document (trivially sorted and
unique); (2) a Create on a package with one document appends the new advisory
and re-sorts, and uniqueness is preserved because the duplicate check ensured
the new ID was absent; (3) an Update re-sorts the replaced list, and
uniqueness is preserved because the replacement keeps the advisory's ID. -/
theorem advisories_sorted_unique_after_write :
    (∀ (req : Request) (b : Bool) (st : IndexState),
        requestValidate req = [] → whereName st req.package = [] →
        (∀ p ∈ st, p.1 ≠ req.package ++ ".advisories.yaml") →
        ∃ d : Document,
          Create req true b st
            = (Except.ok (), st ++ [(req.package ++ ".advisories.yaml", d)])
          ∧ List.Sorted advLe d.advisories
          ∧ (d.advisories.map (fun a => a.id)).Nodup)
    ∧ (∀ (req : Request) (pre post : IndexState) (fn : String) (doc : Document),
        requestValidate req = [] →
        (∀ p ∈ pre, p.2.package.name ≠ req.package) →
        (∀ p ∈ post, p.2.package.name ≠ req.package) →
        doc.package.name = req.package →
        (doc.advisories.map (fun a => a.id)).Nodup →
        advisoriesGet doc.advisories req.vulnerabilityID = none →
        Create req true true (pre ++ (fn, doc) :: post)
            = (Except.ok (), pre ++ (fn, createdInDocument req doc) :: post)
          ∧ List.Sorted advLe (createdInDocument req doc).advisories
          ∧ ((createdInDocument req doc).advisories.map (fun a => a.id)).Nodup)
    ∧ (∀ (req : Request) (pre post : IndexState) (fn : String) (doc : Document)
        (adv : Advisory),
        (∀ p ∈ pre, p.2.package.name ≠ req.package) →
        (∀ p ∈ post, p.2.package.name ≠ req.package) →
        doc.package.name = req.package →
        (doc.advisories.map (fun a => a.id)).Nodup →
        advisoriesGet doc.advisories req.vulnerabilityID = some adv →
        Update req true true (pre ++ (fn, doc) :: post)
            = (Except.ok (), pre ++ (fn, updatedDocument req doc adv) :: post)
          ∧ List.Sorted advLe (updatedDocument req doc adv).advisories
          ∧ ((updatedDocument req doc adv).advisories.map (fun a => a.id)).Nodup) := by
  refine ⟨?_, ?_, ?_⟩
  · intro req b st hval hw hfn
    obtain ⟨e, he⟩ := requestValidate_event hval
    refine ⟨{ schemaVersion := SchemaVersion, package := { name := req.package },
              advisories := [{ id := req.vulnerabilityID, aliases := req.aliases,
                               events := [req.event.getD zeroEvent] }] },
            create_case0_shape req b st hval hw hfn, ?_, by simp⟩
    exact List.sorted_singleton _
  · intro req pre post fn doc hval hpre hpost hdoc hnd hget
    refine ⟨create_case1_shape req pre post fn doc hval hpre hpost hdoc hget, ?_, ?_⟩
    · exact sortAdvisories_sorted _
    · show ((sortAdvisories (doc.advisories
          ++ [{ id := req.vulnerabilityID, aliases := req.aliases,
                events := [req.event.getD zeroEvent] }])).map (fun a => a.id)).Nodup
      rw [((sortAdvisories_perm _).map _).nodup_iff]
      rw [List.map_append]
      refine List.Nodup.append hnd (by simp) ?_
      intro x hx
      obtain ⟨a, ha, hax⟩ := List.mem_map.mp hx
      have := advisoriesGet_eq_none.mp hget a ha
      simp only [List.map_cons, List.map_nil, List.mem_singleton]
      intro hxeq
      exact this (by rw [← hax] at hxeq; exact hxeq)
  · intro req pre post fn doc adv hpre hpost hdoc hnd hget
    obtain ⟨hmem, hvid⟩ := advisoriesGet_eq_some hget
    have hvid2 : ({ adv with events := adv.events ++ [req.event.getD zeroEvent] } : Advisory).id
        = req.vulnerabilityID := hvid
    refine ⟨update_success_shape req pre post fn doc adv hpre hpost hdoc hget, ?_, ?_⟩
    · exact sortAdvisories_sorted _
    · show ((sortAdvisories (advisoriesUpdate doc.advisories req.vulnerabilityID
          { adv with events := adv.events ++ [req.event.getD zeroEvent] })).map
            (fun a => a.id)).Nodup
      rw [((sortAdvisories_perm _).map _).nodup_iff, ids_advisoriesUpdate hvid2]
      exact hnd

/-- Witness for C6 at the concrete curl store: the Update branch produces a
sorted, duplicate-free advisory list. -/
theorem advisories_sorted_unique_after_write_witness :
    advisoriesGet docCurl.advisories reqFP.vulnerabilityID = some advCurl
    ∧ (Update reqFP true true ([] ++ ("curl.advisories.yaml", docCurl) :: [])
         = (Except.ok (), [] ++ ("curl.advisories.yaml", updatedDocument reqFP docCurl advCurl) :: [])
        ∧ List.Sorted advLe (updatedDocument reqFP docCurl advCurl).advisories
        ∧ ((updatedDocument reqFP docCurl advCurl).advisories.map (fun a => a.id)).Nodup) :=
  ⟨by decide,
   advisories_sorted_unique_after_write.2.2 reqFP [] [] ("curl.advisories.yaml") docCurl advCurl
     (by decide) (by decide) (by decide) (by decide) (by decide)⟩

/-- C7 counterexample: an advisory whose latest event is an under-investigation
determination is mapped to no secfixes entry at all, not to a distinguished
marker of its own; exporting an index holding only such an advisory even fails
with the no-security-data error instead of producing any marker.  The claimed
totality of the marker mapping over all event kinds is therefore false. -/
theorem other_event_kinds_unexported_cx :
    advisorySecfixesEntry advInv = Except.ok none
    ∧ (BuildSecurityDatabase { urlBase := "u", archs := [], repo := "r" } [stInv]).fst
        = Except.error BuildError.noPackageSecurityData := by
  refine ⟨by decide, by decide⟩

/-- C7 (amended): in the exporter's status mapping, an advisory whose latest
event has kind Fixed is grouped under its fixedVersion key, one whose latest
event has kind FalsePositiveDetermination is grouped under the distinguished
NAK marker, and an advisory whose latest event has any other kind contributes
no entry to the exported artifact at all (it is silently omitted rather than
mapped to a marker of its own). -/
theorem secfixes_status_mapping (adv : Advisory) (e : Event)
    (hne : adv.events ≠ [])
    (hlast : (SortedEvents adv.events).getLast? = some e) :
    (∀ v : String, e.type = EventType.fixed → e.data = EventData.fixed v →
        advisorySecfixesEntry adv = Except.ok (some (v, adv.id)))
    ∧ (e.type = EventType.falsePositiveDetermination →
        advisorySecfixesEntry adv = Except.ok (some (NAK, adv.id)))
    ∧ (e.type ≠ EventType.fixed → e.type ≠ EventType.falsePositiveDetermination →
        advisorySecfixesEntry adv = Except.ok none) := by
  have hbase := advisorySecfixesEntry_nonempty adv hne
  rw [hlast] at hbase
  have hbase2 : advisorySecfixesEntry adv
      = (match e.type with
         | EventType.fixed =>
           match e.data with
           | EventData.fixed version => Except.ok (some (version, adv.id))
           | EventData.noData => Except.error BuildError.panicked
         | EventType.falsePositiveDetermination => Except.ok (some (NAK, adv.id))
         | _ => Except.ok none) := hbase
  refine ⟨?_, ?_, ?_⟩
  · intro v ht hd
    rw [hbase2, ht, hd]
  · intro ht
    rw [hbase2, ht]
  · intro h1 h2
    rw [hbase2]
    cases het : e.type with
    | fixed => exact absurd het h1
    | falsePositiveDetermination => exact absurd het h2
    | notAffected => rfl
    | underInvestigation => rfl
    | pendingUpstreamFix => rfl

/-- Witness for C7 (amended): the concrete under-investigation advisory
contributes no entry. -/
theorem secfixes_status_mapping_witness :
    (SortedEvents advInv.events).getLast? = some evInv3
    ∧ advisorySecfixesEntry advInv = Except.ok none :=
  ⟨by decide,
   (secfixes_status_mapping advInv evInv3 (by decide) (by decide)).2.2 (by decide) (by decide)⟩

/-- C8: the exporter excludes every advisory with zero events (it yields no
status and no entry), every exported package entry has a non-empty secfixes
map (documents contributing nothing are skipped), a successful export means
every supplied index contributed at least one package entry, and whenever the
indices' document loops all succeed but some index contributes zero package
entries, BuildSecurityDatabase fails with the no-package-security-data
error. -/
theorem exporter_excludes_and_fails_empty :
    (∀ adv : Advisory, adv.events = [] → advisorySecfixesEntry adv = Except.ok none)
    ∧ (∀ (docs : List Document) (pes : List PackageEntry),
        collectDocEntries docs = Except.ok pes → ∀ pe ∈ pes, pe.secfixes ≠ [])
    ∧ (∀ (opts : BuildOptions) (indices : List IndexState) (db : Database),
        (BuildSecurityDatabase opts indices).fst = Except.ok db →
        ∀ st ∈ indices, ∃ pes : List PackageEntry,
          collectDocEntries (selectConfigurations st) = Except.ok pes ∧ pes ≠ [])
    ∧ (∀ (opts : BuildOptions) (indices : List IndexState),
        (∀ st ∈ indices, ∃ pes : List PackageEntry,
          collectDocEntries (selectConfigurations st) = Except.ok pes) →
        (∃ st ∈ indices, collectDocEntries (selectConfigurations st) = Except.ok []) →
        (BuildSecurityDatabase opts indices).fst
          = Except.error BuildError.noPackageSecurityData) := by
  refine ⟨?_, collectDocEntries_secfixes_ne_nil, ?_, ?_⟩
  · intro adv h
    unfold advisorySecfixesEntry
    rw [if_pos (by rw [h]; rfl)]
  · intro opts indices db h st hmem
    have hok : ∃ pkgs : List PackageEntry, (buildIndexLoop indices).fst = Except.ok pkgs := by
      unfold BuildSecurityDatabase at h
      cases hb : buildIndexLoop indices with
      | mk r sts =>
        rw [hb] at h
        cases r with
        | error e => cases h
        | ok pkgs => exact ⟨pkgs, rfl⟩
    obtain ⟨pkgs, hp⟩ := hok
    exact buildIndexLoop_ok_contributions indices pkgs hp st hmem
  · intro opts indices hall hex
    have h := buildIndexLoop_empty_contribution indices hall hex
    unfold BuildSecurityDatabase
    cases hb : buildIndexLoop indices with
    | mk r sts =>
      rw [hb] at h
      simp only at h
      rw [h]

/-- Witness for C8: a zero-event advisory yields no entry, and an index with
no documents makes the export fail with the no-package-security-data error. -/
theorem exporter_excludes_and_fails_empty_witness :
    advisorySecfixesEntry { id := "CVE-2024-0003", aliases := [], events := [] }
        = Except.ok none
    ∧ (BuildSecurityDatabase { urlBase := "u", archs := [], repo := "r" } [[]]).fst
        = Except.error BuildError.noPackageSecurityData :=
  ⟨exporter_excludes_and_fails_empty.1
     { id := "CVE-2024-0003", aliases := [], events := [] } rfl,
   exporter_excludes_and_fails_empty.2.2.2 { urlBase := "u", archs := [], repo := "r" } [[]]
     (by
       intro st hmem
       rw [List.mem_singleton] at hmem
       subst hmem
       exact ⟨[], rfl⟩)
     ⟨[], List.mem_singleton.mpr rfl, rfl⟩⟩

/-- C9: the exporter is read-only with respect to every supplied index: the
store states after BuildSecurityDatabase are exactly the input states, so
every document — its advisory list order and every event list included — is
left as it was.  (Under the spec's model of Select().Configurations() as an
immutable snapshot, the exporter's in-place sort acts on snapshot copies
only.) -/
theorem exporter_read_only (opts : BuildOptions) (indices : List IndexState) :
    (BuildSecurityDatabase opts indices).snd = indices :=
  buildSecurityDatabase_snd opts indices

/-- C10: whenever every timestamp-latest event of kind Fixed carries a Fixed
payload, the exporter's unchecked type assertion cannot fail and the advisory
entry is always computed without a panic; moreover for a non-empty event list
the index used by the code, length of the unsorted list minus one, is always
in bounds for the sorted list, and the latest-event lookup succeeds. -/
theorem exporter_safety_no_panic (adv : Advisory)
    (hwf : ∀ e : Event, latestEvent adv.events = some e → e.type = EventType.fixed →
        ∃ v : String, e.data = EventData.fixed v) :
    (adv.events ≠ [] →
        adv.events.length - 1 < (SortedEvents adv.events).length
        ∧ ∃ e : Event, latestEvent adv.events = some e)
    ∧ ∃ r : Option (String × String), advisorySecfixesEntry adv = Except.ok r := by
  by_cases hne : adv.events = []
  · refine ⟨fun h => absurd hne h, ⟨none, ?_⟩⟩
    unfold advisorySecfixesEntry
    rw [if_pos (by rw [hne]; rfl)]
  · have hlen0 : 0 < adv.events.length := List.length_pos.mpr hne
    have hlt : adv.events.length - 1 < (SortedEvents adv.events).length := by
      rw [sortedEvents_length]
      exact Nat.sub_lt hlen0 Nat.one_pos
    have hsne : SortedEvents adv.events ≠ [] := by
      intro hnil
      rw [hnil] at hlt
      cases hlt
    obtain ⟨e, he0⟩ : ∃ e : Event, (SortedEvents adv.events).getLast? = some e :=
      Option.isSome_iff_exists.mp (List.getLast?_isSome.mpr hsne)
    have he : latestEvent adv.events = some e := by
      rw [latestEvent_eq_getLast?, he0]
    have hbase := advisorySecfixesEntry_nonempty adv hne
    rw [he0] at hbase
    have hbase2 : advisorySecfixesEntry adv
        = (match e.type with
           | EventType.fixed =>
             match e.data with
             | EventData.fixed version => Except.ok (some (version, adv.id))
             | EventData.noData => Except.error BuildError.panicked
           | EventType.falsePositiveDetermination => Except.ok (some (NAK, adv.id))
           | _ => Except.ok none) := hbase
    refine ⟨fun _ => ⟨hlt, ⟨e, he⟩⟩, ?_⟩
    rw [hbase2]
    cases het : e.type with
    | fixed =>
      obtain ⟨v, hv⟩ := hwf e he het
      rw [hv]
      exact ⟨some (v, adv.id), rfl⟩
    | falsePositiveDetermination => exact ⟨some (NAK, adv.id), rfl⟩
    | notAffected => exact ⟨none, rfl⟩
    | underInvestigation => exact ⟨none, rfl⟩
    | pendingUpstreamFix => exact ⟨none, rfl⟩

/-- Witness for C10 at the concrete curl advisory, whose latest event is Fixed
with a Fixed payload. -/
theorem exporter_safety_no_panic_witness :
    advCurl.events ≠ []
    ∧ ((advCurl.events ≠ [] →
        advCurl.events.length - 1 < (SortedEvents advCurl.events).length
        ∧ ∃ e : Event, latestEvent advCurl.events = some e)
      ∧ ∃ r : Option (String × String), advisorySecfixesEntry advCurl = Except.ok r) :=
  ⟨by decide,
   exporter_safety_no_panic advCurl (by
     intro e he ht
     have h0 : latestEvent advCurl.events = some evFixed1 := by decide
     rw [h0] at he
     injection he with he2
     exact ⟨"8.4.0", by rw [← he2]; rfl⟩)⟩

end Wolfictl

